import Mathlib

/-!
Verification development for the wikipedia-onthisday-bsky-bot repository.

The TypeScript sources are shallowly embedded: JavaScript strings are modeled
as Lean `String`s (sequences of Unicode scalar values, adequate for the
well-formed text the bot manipulates), the JSON article store is a
`List Article`, thrown exceptions are `Except String` errors, and the external
collaborators (the RSS/HTML parsing library, the Bluesky client) are modeled
as inputs: feed items carry the results of the relevant DOM queries, and the
network outcome of `agent.post` is a parameter.
-/

namespace OtdBot

/-- Content kinds, from `src/utils/enums.ts` (current version, including
`featuredEvent`). -/
inductive ContentType where
  | todayText
  | holiday
  | featuredEvent
  | event
  | anniversary
deriving DecidableEq, Repr

/-- Image metadata attached to a featured event, from the `Picture` interface
used by `classes.ts` and `wikipedia.ts`. -/
structure Picture where
  uri : String
  alt : String
  width : Int
  height : Int
deriving DecidableEq, Repr

/-- One content unit of an article, from `class Content` in
`src/classes/classes.ts` (current version): `type`, `value`, optional image,
and the `alreadyPosted` flag (constructor default `false`). -/
structure Content where
  type : ContentType
  value : String
  img : Option Picture
  alreadyPosted : Bool
deriving DecidableEq, Repr

/-- One article, from `class Article` in `src/classes/classes.ts` (current
version): `id`, `url` and the ordered content list. -/
structure Article where
  id : String
  url : String
  contentList : List Content
deriving DecidableEq, Repr

/-- A hyperlink extracted by the sanitizer, from the `Link` interface:
display text plus absolute URL. -/
structure Link where
  text : String
  url : String
deriving DecidableEq, Repr

/-- A rich-text facet as built by `preparePost` in
`src/functions/bluesky.ts`: a byte range plus the link URI carried in its
single link feature. -/
structure Facet where
  byteStart : Nat
  byteEnd : Nat
  uri : String
deriving DecidableEq, Repr

/-- A postable Bluesky post record, from `class BlueskyPost`: text, optional
facet list and creation timestamp (embeds are not needed by the claims). -/
structure BlueskyPost where
  text : String
  facets : Option (List Facet)
  createdAt : String
deriving DecidableEq, Repr

/-! ### JavaScript string primitives

The bot's text processing uses JavaScript `String.prototype.includes`,
`replace` (first occurrence only), `split` and `indexOf`. They are modeled
over `List Char` so that every definition is structurally recursive and
kernel-computable. -/

/-- JS `s.includes(pat)`: does `pat` occur as a contiguous substring of `s`? -/
def containsSub (pat : List Char) : List Char → Bool
  | [] => pat.isEmpty
  | c :: rest => pat.isPrefixOf (c :: rest) || containsSub pat rest

/-- String-level wrapper for `containsSub`. -/
def jsIncludes (s pat : String) : Bool := containsSub pat.data s.data

/-- JS `s.replace(pat, rep)` with a string pattern: replace only the first
occurrence of `pat`; if `pat` does not occur, return `s` unchanged. -/
def replaceFirstList (pat rep : List Char) : List Char → List Char
  | [] => if pat.isEmpty then rep else []
  | c :: rest =>
    if pat.isPrefixOf (c :: rest) then rep ++ (c :: rest).drop pat.length
    else c :: replaceFirstList pat rep rest

/-- String-level wrapper for `replaceFirstList`. -/
def jsReplaceFirst (s pat rep : String) : String :=
  ⟨replaceFirstList pat.data rep.data s.data⟩

/-- Worker for JS `split` with a non-empty string separator. The fuel argument
(instantiated with the length of the input) keeps the recursion structural so
the kernel can evaluate it. -/
def jsSplitAux (sep : List Char) : Nat → List Char → List (List Char)
  | _, [] => [[]]
  | 0, s => [s]
  | fuel + 1, c :: rest =>
    if sep.isPrefixOf (c :: rest) then
      [] :: jsSplitAux sep fuel (rest.drop (sep.length - 1))
    else
      match jsSplitAux sep fuel rest with
      | [] => [[c]]
      | h :: t => (c :: h) :: t

/-- JS `s.split(sep)` for a non-empty separator `sep`. -/
def jsSplit (s sep : String) : List String :=
  (jsSplitAux sep.data s.data.length s.data).map (fun l => ⟨l⟩)

/-- Scalar index of the first occurrence of `pat` in `s` (`none` if absent).
For the well-formed text handled by the bot this is the occurrence JS
`indexOf` finds, expressed at code-point granularity. -/
def firstOccur (pat : List Char) : List Char → Option Nat
  | [] => if pat.isEmpty then some 0 else none
  | c :: rest =>
    if pat.isPrefixOf (c :: rest) then some 0
    else (firstOccur pat rest).map (· + 1)

/-! ### Unicode encodings

JS strings are UTF-16 code-unit sequences and the Bluesky API indexes facets
in UTF-8 bytes. `@atproto/api`'s `UnicodeString` stores both encodings; its
`utf16IndexToUtf8Index(i)` is the byte length of the UTF-8 encoding of the
UTF-16 prefix `utf16.slice(0, i)`, and its `length` is the UTF-8 byte length
of the whole string. Both are modeled here on scalar values; slicing is
modeled at scalar granularity, which agrees with JS on every index that falls
on a scalar boundary (all indices produced by `indexOf` for well-formed
patterns do). -/

/-- Number of UTF-16 code units of one scalar value. -/
def utf16Len (c : Char) : Nat := if c.toNat < 0x10000 then 1 else 2

/-- Number of UTF-8 bytes of one scalar value. -/
def utf8Len (c : Char) : Nat :=
  if c.toNat < 0x80 then 1
  else if c.toNat < 0x800 then 2
  else if c.toNat < 0x10000 then 3
  else 4

/-- UTF-16 code-unit length of a string. -/
def utf16Length (s : List Char) : Nat := (s.map utf16Len).sum

/-- UTF-8 byte length of a string (what `UnicodeString.length` returns). -/
def utf8Length (s : List Char) : Nat := (s.map utf8Len).sum

/-- JS `s.indexOf(pat)`: the UTF-16 code-unit index of the first occurrence,
or `-1` when `pat` does not occur. -/
def jsIndexOf (s pat : List Char) : Int :=
  match firstOccur pat s with
  | some k => (utf16Length (s.take k) : Int)
  | none => -1

/-- Prefix of `s` spanning (up to) the first `i` UTF-16 code units, at scalar
granularity (JS `slice(0, i)` for boundary-aligned `i`). -/
def utf16Slice : List Char → Nat → List Char
  | _, 0 => []
  | [], _ => []
  | c :: rest, i =>
    if utf16Len c ≤ i then c :: utf16Slice rest (i - utf16Len c) else []

/-- The `UnicodeString.utf16IndexToUtf8Index` conversion: UTF-8 byte length of
the UTF-16 prefix of length `i`; a negative `i` counts from the end, as in JS
`slice`. -/
def utf16IndexToUtf8Index (s : List Char) (i : Int) : Nat :=
  let len := utf16Length s
  if i < 0 then utf8Length (utf16Slice s (len - min (-i).toNat len))
  else utf8Length (utf16Slice s (min i.toNat len))

/-! ### Facet builder

`preparePost` (`src/functions/bluesky.ts`, current version, lines 84-189)
builds a rich text object, keeps any facets detected by the collaborator
(`rt.detectFacets`, modeled as the `autoFacets` argument), and appends one
custom facet per `Link`: `byteStart` is
`utf16IndexToUtf8Index(rt.text.indexOf(link.text))` and
`byteEnd = byteStart + unicodeLinkText.length` (UTF-8 byte length of the
display text). -/

/-- The custom facet `preparePost` builds for one link. -/
def mkCustomFacet (rawText : String) (l : Link) : Facet :=
  let start := utf16IndexToUtf8Index rawText.data (jsIndexOf rawText.data l.text.data)
  { byteStart := start
    byteEnd := start + utf8Length l.text.data
    uri := l.url }

/-- One step of the facet-appending loop: `rt.facets` starts out possibly
undefined; the first custom facet creates the array, later ones are pushed. -/
def appendFacetStep (rawText : String) (acc : Option (List Facet)) (l : Link) :
    Option (List Facet) :=
  match acc with
  | none => some [mkCustomFacet rawText l]
  | some fs => some (fs ++ [mkCustomFacet rawText l])

/-- The `preparePost` function: text is passed through unchanged, facets are
the auto-detected ones followed by one custom facet per link, in order. -/
def preparePost (rawText : String) (linkCollection : List Link)
    (autoFacets : Option (List Facet)) (createdAt : String) : BlueskyPost :=
  { text := rawText
    facets := linkCollection.foldl (appendFacetStep rawText) autoFacets
    createdAt := createdAt }

/-! ### Content segmenter

`getOnThisDayTodayText` and `getOnThisDayHolidays`
(`src/functions/wikipedia.ts`, lines 99-115 and 122-150) work on the string
form of the `.mw-parser-output > p` node. That DOM query is performed by the
external `node-html-parser` collaborator, so the functions here take the
node's string (`todayNode.toString()`) as their input. A thrown `TypeError`
(reading a property of `undefined`) is an `Except.error`. -/

/-- The today-text extraction: when the paragraph contains a colon, the text
is split on `": "`, the first field keeps the opening tag and is re-closed
with `</p>` (with the first newline removed); otherwise the whole paragraph
is returned. -/
def getOnThisDayTodayText (pNode : String) : String :=
  if jsIncludes pNode ":" then
    jsReplaceFirst ((jsSplit pNode ": ").headD "") "\n" "" ++ "</p>"
  else pNode

/-- The holiday extraction: when the paragraph contains a colon, field 1 of
the `": "` split is re-wrapped with `<p>` (first newline removed) and split
on `"; "` into one holiday string per entry; with no colon the result is
empty. When the paragraph contains `:` but no `": "`, field 1 is `undefined`
and the call to `.replace` on it throws. -/
def getOnThisDayHolidays (pNode : String) : Except String (List String) :=
  if jsIncludes pNode ":" then
    match (jsSplit pNode ": ").get? 1 with
    | none => .error "TypeError: combinedText[1] is undefined"
    | some t => .ok (jsSplit ("<p>" ++ jsReplaceFirst t "\n" "") "; ")
  else .ok []

/-- Modelled from the spec words for claim C5 only (refinement reference, not
code): "the text after the colon is split into one Holiday unit per
semicolon-delimited entry" — everything after the first `": "` separator,
split on `"; "`. -/
def specHolidayUnits (pNode : String) : List String :=
  match firstOccur ": ".data pNode.data with
  | some k => jsSplit ⟨pNode.data.drop (k + 2)⟩ "; "
  | none => []

/-! ### Sanitizer: the deferred year-count substitution

Step modeled from `stripHTMLElementsAndDecorateText` (`src/functions/utils.ts`
lines 345-355 of the older copy; identical in the current version): when the
text contains the `<<YEARSAGO>>` token, the first match of the regex
`\((\d+)\)` is taken, its parentheses are stripped with two single-occurrence
`replace` calls, the digits are parsed with `Number`, and the token is
replaced by `(currentUTCYear - year) + ' years ago'`. A `null` regex match
makes the subscript access throw. `Number` is modeled as exact integer
parsing; the theorems restrict the digit count to the range where the JS
float parse is exact. -/

/-- Leftmost match of `\((\d+)\)`: the whole matched substring
`"(" ++ digits ++ ")"`, or `none`. -/
def parenIntMatch : List Char → Option (List Char)
  | [] => none
  | c :: rest =>
    if c = '(' then
      let ds := rest.takeWhile Char.isDigit
      if ds ≠ [] ∧ (rest.drop ds.length).headD ' ' = ')' then
        some ('(' :: ds ++ [')'])
      else parenIntMatch rest
    else parenIntMatch rest

/-- Value of a digit string (the exact value `Number` returns for digit
strings of at most 15 characters). -/
def digitsToNat (ds : List Char) : Nat :=
  ds.foldl (fun n c => 10 * n + (c.toNat - 48)) 0

/-- The year-count substitution step of the sanitizer. -/
def applyYearsAgo (currentUTCYear : Int) (s : String) : Except String String :=
  if jsIncludes s "<<YEARSAGO>>" then
    match parenIntMatch s.data with
    | none => .error "TypeError: contentRaw.match is null"
    | some m =>
      let yearString := jsReplaceFirst (jsReplaceFirst ⟨m⟩ "(" "") ")" ""
      let year : Int := digitsToNat yearString.data
      let yearsAgo : Int := currentUTCYear - year
      .ok (jsReplaceFirst s "<<YEARSAGO>>" (toString yearsAgo ++ " years ago"))
  else .ok s

/-! ### Feed selector

`fetchOnThisDayArticle` (`src/functions/wikipedia.ts` lines 19-92). Instants
are milliseconds since the Unix epoch (`Int`). `new Date(item.isoDate)` is the
collaborator's parse of the feed's date string, carried on the item as
`isoDate : Option Int` (`none` when the string is invalid, in which case
`toISOString` throws inside the filter's `try` and the item is excluded).
Comparing `toISOString()` strings of two valid dates is comparing their
instants, since `toISOString` is injective, so the filter is modeled on
instants. The code computes today's midnight with
`Date.UTC(getUTCFullYear(), getUTCMonth(), getUTCDate(), 0, 0, 0)` — only UTC
accessors, so the process-local timezone offset (the `tzOffset` argument
below) never enters the computation. -/

def msPerDay : Int := 86400000

/-- Today's UTC midnight as an instant: `now` floored to a whole UTC day.
The local timezone offset is available to JS `Date` but unused because the
source reads only UTC components. -/
def utcMidnight (_tzOffset now : Int) : Int := now - now.emod msPerDay

/-- A feed item together with the collaborator-provided parse results the
pipeline reads from it: the parsed publish instant, the string form of the
`.mw-parser-output > p` node (`none` when the query returns `null`), the
top-level `ul > li` node strings, the anniversary `li` node strings, and the
featured-event image node if present. -/
structure FeedItem where
  isoDateRaw : String
  isoDate : Option Int
  title : String
  contents : String
  link : String
  pNode : Option String
  listItems : List String
  annivItems : List String
  pictureNode : Option Picture
deriving DecidableEq, Repr

/-- The feed filter: keep the items whose normalized publish timestamp equals
today's UTC midnight. -/
def feedDateFilter (tzOffset now : Int) (items : List FeedItem) : List FeedItem :=
  items.filter (fun it => decide (it.isoDate = some (utcMidnight tzOffset now)))

/-- The item the run goes on to use: `articles[0]`, the first match. -/
def selectTodayItem (tzOffset now : Int) (items : List FeedItem) : Option FeedItem :=
  (feedDateFilter tzOffset now items).head?

/-- Builds the content list of today's article, in source push order:
today-text (constructed `alreadyPosted := true`), holidays, featured events
(each paired with the single image node, whose absence throws), events
(the non-"pictured" list items), anniversaries. -/
def buildContentList (it : FeedItem) : Except String (List Content) := do
  let p ← match it.pNode with
    | some p => Except.ok p
    | none => Except.error "TypeError: todayNode is null"
  let today := getOnThisDayTodayText p
  let holidays ← getOnThisDayHolidays p
  let featuredTexts := it.listItems.filter (fun li => jsIncludes li "pictured")
  let featured ← match featuredTexts, it.pictureNode with
    | [], _ => Except.ok ([] : List (String × Picture))
    | ts, some pic => Except.ok (ts.map (fun t => (t, pic)))
    | _, none => Except.error "TypeError: picture is null"
  let events := it.listItems.filter (fun li => !jsIncludes li "pictured")
  Except.ok
    ([⟨ContentType.todayText, today, none, true⟩]
      ++ holidays.map (fun h => ⟨ContentType.holiday, h, none, false⟩)
      ++ featured.map (fun fp => ⟨ContentType.featuredEvent, fp.1, some fp.2, false⟩)
      ++ events.map (fun e => ⟨ContentType.event, e, none, false⟩)
      ++ it.annivItems.map (fun a => ⟨ContentType.anniversary, a, none, false⟩))

/-- The whole fetch: the entire body sits in one `try`; any error — a feed
fetch/parse failure (an `Except.error` input) or a thrown `TypeError` further
down (no matching item, missing nodes) — is caught and surfaced as `null`,
i.e. `none`. -/
def fetchOnThisDayArticle (tzOffset now : Int)
    (feedResult : Except String (List FeedItem)) : Option Article :=
  match (do
    let feed ← feedResult
    let first ← match feedDateFilter tzOffset now feed with
      | [] => Except.error "TypeError: articles[0] is undefined"
      | a :: _ => Except.ok a
    let contentList ← buildContentList first
    Except.ok (⟨first.isoDateRaw, first.link, contentList⟩ : Article) :
      Except String Article) with
  | .ok a => some a
  | .error _ => none

/-! ### Store operations

The articles JSON document is `{articles: [Article]}`; modeled as
`List Article`. `saveArticleToJSON` and `markArticleContentAsPosted` are from
the current `functions/utils.ts` (the file whose export list matches the
imports of `src/app.ts`). -/

/-- Save one article: if an article with the same id is already stored, return
without modifying the store; otherwise push it and write the file back. -/
def saveArticleToJSON (article : Article) (articles : List Article) : List Article :=
  let newArticle : Article := ⟨article.id, article.url, article.contentList⟩
  if (articles.find? (fun art => art.id == newArticle.id)).isSome then articles
  else articles ++ [newArticle]

/-- Mark one content of one article as posted: find the article by id and the
content by value (a failed lookup throws, and the function's own catch
rethrows), set `alreadyPosted := true` on the found content, substitute it for
every content with that value, substitute the article for every article with
that id, and save. -/
def markArticleContentAsPosted (store : List Article) (article : Article)
    (content : Content) : Except String (List Article) :=
  match store.find? (fun art => art.id == article.id) with
  | none => .error "TypeError: articleToUpdate is undefined"
  | some articleToUpdate =>
    match articleToUpdate.contentList.find? (fun con => con.value == content.value) with
    | none => .error "TypeError: contentToUpdate is undefined"
    | some contentToUpdate =>
      let updated : Content := { contentToUpdate with alreadyPosted := true }
      let newList := articleToUpdate.contentList.map
        (fun c => if c.value ≠ updated.value then c else updated)
      let newArticle : Article := { articleToUpdate with contentList := newList }
      .ok (store.map (fun a => if a.id ≠ newArticle.id then a else newArticle))

/-! ### Publication state machine: the article-present branch

`runBot` (`src/app.ts` lines 89-122): when the stored article for today
exists, the loop walks its content list in order; the first content with
`alreadyPosted = false` and a non-`todayText` type is handed to
`sanitizeAndPostContent` and the loop breaks. Posting does not modify the
articles store (`saveArticleContent` is commented out in
`sanitizeAndPostContent`, and `markArticleContentAsPosted` is called only for
unposted `todayText` contents). The returned triple is the list of contents
handed to posting this run, the resulting store, and `freshContentFound`. -/

def runLoop (todayArticle : Article) :
    List Content → List Article → Except String (List Content × List Article × Bool)
  | [], store => .ok ([], store, false)
  | c :: rest, store =>
    if ¬c.alreadyPosted ∧ c.type ≠ ContentType.todayText then
      .ok ([c], store, true)
    else if ¬c.alreadyPosted ∧ c.type = ContentType.todayText then do
      let store' ← markArticleContentAsPosted store todayArticle c
      runLoop todayArticle rest store'
    else runLoop todayArticle rest store

/-- One invocation of `runBot` in the case the claims address: the stored
article for today already exists (the other branch runs the fetch pipeline
instead and is not entered). -/
def runBotArticlePresent (store : List Article) (todayISO : String) :
    Except String (List Content × List Article × Bool) :=
  match store.find? (fun a => a.id == todayISO) with
  | none => .error "article absent: runBot takes the fetch branch instead"
  | some art => runLoop art art.contentList store

/-- A sequence of `n` consecutive invocations, threading the persisted store;
returns the per-run posted-content lists and the final store. -/
def runsPresent (todayISO : String) :
    Nat → List Article → Except String (List (List Content) × List Article)
  | 0, store => .ok ([], store)
  | n + 1, store => do
    let (posts, store', _) ← runBotArticlePresent store todayISO
    let (rest, finalStore) ← runsPresent todayISO n store'
    Except.ok (posts :: rest, finalStore)

/-- The contents handed to posting by one invocation (empty on a thrown
error, which posts nothing). -/
def postsOfRun (store : List Article) (todayISO : String) : List Content :=
  match runBotArticlePresent store todayISO with
  | .ok (p, _, _) => p
  | .error _ => []

/-! ### Posting and error handling

`postToBluesky` and `sanitizeAndPostContent` (`src/functions/bluesky.ts`
lines 56-75 and 197-228). The network outcome of `agent.post` is the
`netResult` argument; log calls are recorded as `(level, message)` pairs. -/

/-- Log levels from `src/utils/enums.ts`. -/
inductive LogLevel where
  | trace
  | debug
  | info
  | warning
  | error
  | critical
deriving DecidableEq, Repr

/-- One `log(level, message, ...)` call. -/
abbrev LogEntry := LogLevel × String

/-- The `postToBluesky` function: in debug mode the post is only logged and
saved; otherwise `agent.post` is attempted inside a `try` whose `catch` logs a
warning and returns normally. The second component records whether
`savePostToJSON` ran (the post record was persisted). -/
def postToBluesky (debugMode agentInitialized : Bool)
    (netResult : Except String String) : List LogEntry × Bool :=
  if debugMode then
    ([(.trace, "Received post object:"),
      (.info, "This could have been a Bluesky post:")], true)
  else
    match (if agentInitialized then netResult
           else .error "Agent is not initialized.") with
    | .ok _uri =>
      ([(.debug, "Attempting to post to Bluesky..."),
        (.info, "Post successfully created:")], true)
    | .error _e =>
      (if agentInitialized then
        [(.debug, "Attempting to post to Bluesky..."),
         (.warning, "Error posting to BlueSky:")]
       else [(.warning, "Error posting to BlueSky:")], false)

/-- The `sanitizeAndPostContent` function, documented in source as returning
"True or false, based on whether the post was successful". `pipeline` is the
combined outcome of `prefixText` / `stripHTMLElementsAndDecorateText` /
`preparePost`, the stages whose exceptions its own `try` catches; the
store-updating call after posting is commented out in the source, so nothing
here touches the articles store. -/
def sanitizeAndPostContent (pipeline : Except String BlueskyPost)
    (debugMode agentInitialized : Bool) (netResult : Except String String) :
    Bool × List LogEntry :=
  match pipeline with
  | .error _ => (false, [(.error, "Failed to sanitize post content:")])
  | .ok _post =>
    let r := postToBluesky debugMode agentInitialized netResult
    (true, r.1)

/-- The caller's reaction in `runBot`: a critical log entry exactly when
`sanitizeAndPostContent` reported failure. -/
def runBotCriticalLog (postSuccessful : Bool) : List LogEntry :=
  if !postSuccessful then [(.critical, "Failed to post to Bluesky!!!")] else []

/-! ## Helper lemmas -/

theorem utf16Len_pos (c : Char) : 1 ≤ utf16Len c := by
  unfold utf16Len
  split <;> omega

theorem utf16Length_cons (c : Char) (s : List Char) :
    utf16Length (c :: s) = utf16Len c + utf16Length s := by
  simp [utf16Length]

theorem utf16Length_take_le (s : List Char) (k : Nat) :
    utf16Length (s.take k) ≤ utf16Length s := by
  induction s generalizing k with
  | nil => simp [utf16Length]
  | cons c rest ih =>
    cases k with
    | zero => simp [utf16Length]
    | succ k =>
      simp only [List.take_succ_cons, utf16Length_cons]
      exact Nat.add_le_add_left (ih k) _

theorem utf16Slice_zero (s : List Char) : utf16Slice s 0 = [] := by
  cases s <;> rfl

theorem utf16Slice_exact (u v : List Char) :
    utf16Slice (u ++ v) (utf16Length u) = u := by
  induction u with
  | nil => simpa [utf16Length] using utf16Slice_zero v
  | cons c u ih =>
    have h1 : 1 ≤ utf16Len c := utf16Len_pos c
    obtain ⟨m, hm⟩ : ∃ m, utf16Len c + utf16Length u = m + 1 :=
      ⟨utf16Len c + utf16Length u - 1, by omega⟩
    rw [List.cons_append, utf16Length_cons, hm]
    show utf16Slice (c :: (u ++ v)) (m + 1) = c :: u
    rw [utf16Slice]
    rw [if_pos (by omega)]
    have : m + 1 - utf16Len c = utf16Length u := by omega
    rw [this, ih]
    omega

theorem byteStart_conversion (s pat : List Char) (k : Nat)
    (h : firstOccur pat s = some k) :
    utf16IndexToUtf8Index s (jsIndexOf s pat) = utf8Length (s.take k) := by
  have hidx : jsIndexOf s pat = (utf16Length (s.take k) : Int) := by
    unfold jsIndexOf
    rw [h]
  rw [hidx]
  unfold utf16IndexToUtf8Index
  rw [if_neg (by omega)]
  have htn : ((utf16Length (s.take k) : Int)).toNat = utf16Length (s.take k) :=
    Int.toNat_ofNat _
  rw [htn, min_eq_left (utf16Length_take_le s k)]
  have hsl := utf16Slice_exact (s.take k) (s.drop k)
  rw [List.take_append_drop] at hsl
  rw [hsl]

theorem foldl_appendFacetStep (rawText : String) (links : List Link)
    (acc : Option (List Facet)) :
    (links.foldl (appendFacetStep rawText) acc).getD []
      = acc.getD [] ++ links.map (mkCustomFacet rawText) := by
  induction links generalizing acc with
  | nil => simp
  | cons l ls ih =>
    rw [List.foldl_cons, ih]
    cases acc <;> simp [appendFacetStep]

theorem replaceFirst_head (c : Char) (l : List Char) :
    replaceFirstList [c] [] (c :: l) = l := by
  rw [replaceFirstList]
  rw [if_pos (by simp [List.isPrefixOf])]
  simp

theorem replaceFirst_last (c : Char) (ds : List Char) (h : c ∉ ds) :
    replaceFirstList [c] [] (ds ++ [c]) = ds := by
  induction ds with
  | nil => simpa using replaceFirst_head c []
  | cons d ds ih =>
    have hdc : c ≠ d := by
      intro hdc
      refine h ?_
      rw [hdc]
      exact List.mem_cons_self d ds
    rw [List.cons_append, replaceFirstList]
    rw [if_neg (by simp [List.isPrefixOf, hdc])]
    rw [ih (fun hm => h (List.mem_cons_of_mem d hm))]

theorem runLoop_posts_length (art : Article) (cs : List Content)
    (store : List Article) (p : List Content) (st : List Article) (f : Bool)
    (h : runLoop art cs store = .ok (p, st, f)) : p.length ≤ 1 := by
  induction cs generalizing store with
  | nil =>
    rw [runLoop] at h
    cases h
    simp
  | cons c rest ih =>
    rw [runLoop] at h
    split at h
    · cases h
      simp
    · split at h
      · cases hmark : markArticleContentAsPosted store art c with
        | error e => rw [hmark] at h; cases h
        | ok store2 =>
          rw [hmark] at h
          exact ih store2 h
      · exact ih store h

/-! ## Claims -/

/-- Claim C8: every network or parse error raised while fetching the feed is
caught by `fetchOnThisDayArticle`, which returns `null` ("no article today")
instead of propagating the exception. -/
theorem fetch_error_returns_none (tzOffset now : Int) (e : String) :
    fetchOnThisDayArticle tzOffset now (.error e) = none := rfl

/-- Claim C10: the articles store never gains a duplicate id through
`saveArticleToJSON`: saving an article whose id is already stored returns
without modifying the store, saving twice equals saving once, and id-Nodup
stores stay id-Nodup. -/
theorem saveArticle_id_unique (a : Article) (st : List Article) :
    ((∃ b ∈ st, b.id = a.id) → saveArticleToJSON a st = st)
    ∧ saveArticleToJSON a (saveArticleToJSON a st) = saveArticleToJSON a st
    ∧ ((st.map Article.id).Nodup → ((saveArticleToJSON a st).map Article.id).Nodup) := by
  have hfind : ∀ (l : List Article),
      ((l.find? (fun art => art.id == a.id)).isSome = true)
        ↔ ∃ b ∈ l, b.id = a.id := by
    intro l
    rw [List.find?_isSome]
    constructor
    · rintro ⟨b, hb, hba⟩
      exact ⟨b, hb, by simpa using hba⟩
    · rintro ⟨b, hb, hba⟩
      exact ⟨b, hb, by simpa using hba⟩
  refine ⟨?_, ?_, ?_⟩
  · intro hex
    unfold saveArticleToJSON
    rw [if_pos ((hfind st).2 hex)]
  · by_cases hs : ∃ b ∈ st, b.id = a.id
    · have h1 : saveArticleToJSON a st = st := by
        unfold saveArticleToJSON
        rw [if_pos ((hfind st).2 hs)]
      rw [h1, h1]
    · have h1 : saveArticleToJSON a st = st ++ [a] := by
        unfold saveArticleToJSON
        rw [if_neg (by
          intro hsome
          exact hs ((hfind st).1 hsome))]

      rw [h1]
      unfold saveArticleToJSON
      rw [if_pos ((hfind (st ++ [a])).2
        ⟨a, List.mem_append_right st (List.mem_singleton_self a), rfl⟩)]
  · intro hnd
    by_cases hs : ∃ b ∈ st, b.id = a.id
    · unfold saveArticleToJSON
      rw [if_pos ((hfind st).2 hs)]
      exact hnd
    · unfold saveArticleToJSON
      rw [if_neg (by
        intro hsome
        exact hs ((hfind st).1 hsome))]
      rw [List.map_append]
      rw [List.nodup_append]
      refine ⟨hnd, by simp, ?_⟩
      intro x hx hxa
      rcases List.mem_map.1 hx with ⟨b, hb, hbid⟩
      rcases List.mem_singleton.1 hxa with rfl
      exact hs ⟨b, hb, hbid⟩

/-! Concrete fixtures used by witnesses and failing-input evaluations. -/

/-- A todayText unit as stored by `fetchOnThisDayArticle` (posted on
creation). -/
def cToday : Content := ⟨.todayText, "<p>December 25</p>", none, true⟩

/-- An unposted event unit. -/
def cEvA : Content := ⟨.event, "<li>Event A</li>", none, false⟩

/-- A second unposted event unit. -/
def cEvB : Content := ⟨.event, "<li>Event B</li>", none, false⟩

/-- Today's article id (the digest's publish instant as an ISO string). -/
def dayId : String := "2025-12-25T00:00:00.000Z"

/-- Today's stored article: todayText already posted, two event units not. -/
def artD : Article := ⟨dayId, "https://en.wikipedia.org/wiki/Main_Page", [cToday, cEvA, cEvB]⟩

/-- The persisted store holding today's article. -/
def store0 : List Article := [artD]

/-- A different article object carrying the same id as `artD`. -/
def artD2 : Article := ⟨dayId, "https://en.wikipedia.org/wiki/Other", []⟩

/-- Witness for C10 at a concrete store: saving an article whose id is
already stored changes nothing, twice equals once, and ids stay Nodup. -/
theorem saveArticle_id_unique_witness :
    saveArticleToJSON artD2 store0 = store0
    ∧ saveArticleToJSON artD2 (saveArticleToJSON artD2 store0) = saveArticleToJSON artD2 store0
    ∧ ((saveArticleToJSON artD2 store0).map Article.id).Nodup := by
  have h := saveArticle_id_unique artD2 store0
  exact ⟨h.1 ⟨artD, by decide, by decide⟩, h.2.1, h.2.2 (by decide)⟩

/-- Claim C7: the feed selector keeps exactly the items whose normalized
publish instant equals today's UTC midnight, excludes items dated one day
earlier or later, does not depend on the process-local timezone offset, and
deterministically selects the first match. -/
theorem feed_filter_today_utc_midnight (tzOffset now : Int) (items : List FeedItem) :
    (∀ it, it ∈ feedDateFilter tzOffset now items
      ↔ it ∈ items ∧ it.isoDate = some (utcMidnight tzOffset now))
    ∧ (∀ it ∈ items,
        (it.isoDate = some (utcMidnight tzOffset now - msPerDay)
          ∨ it.isoDate = some (utcMidnight tzOffset now + msPerDay))
        → it ∉ feedDateFilter tzOffset now items)
    ∧ (∀ tzOther : Int, feedDateFilter tzOffset now items = feedDateFilter tzOther now items)
    ∧ (∀ a rest, feedDateFilter tzOffset now items = a :: rest
        → selectTodayItem tzOffset now items = some a) := by
  have hmem : ∀ it, it ∈ feedDateFilter tzOffset now items
      ↔ it ∈ items ∧ it.isoDate = some (utcMidnight tzOffset now) := by
    intro it
    simp [feedDateFilter, List.mem_filter]
  refine ⟨hmem, ?_, ?_, ?_⟩
  · intro it _ hoff hin
    have hd := ((hmem it).1 hin).2
    have hms : msPerDay = 86400000 := rfl
    rcases hoff with hoff | hoff <;>
    · rw [hoff] at hd
      injection hd with hd
      omega
  · intro tzOther
    rfl
  · intro a rest hfil
    unfold selectTodayItem
    rw [hfil]
    rfl

/-- A feed item dated yesterday (UTC). -/
def itY : FeedItem :=
  ⟨"2025-10-10T00:00:00.000Z", some 172800000, "y", "<div/>", "https://y", none, [], [], none⟩

/-- A feed item dated today (UTC). -/
def itT : FeedItem :=
  ⟨"2025-10-11T00:00:00.000Z", some 259200000, "t", "<div/>", "https://t", none, [], [], none⟩

/-- A feed item dated tomorrow (UTC). -/
def itTm : FeedItem :=
  ⟨"2025-10-12T00:00:00.000Z", some 345600000, "tm", "<div/>", "https://tm", none, [], [], none⟩

/-- Witness for C7: with `now` in the middle of day 3 after the epoch,
only the item dated at that day's UTC midnight survives, the
yesterday-dated item is excluded, and the first match is selected. -/
theorem feed_filter_today_utc_midnight_witness :
    feedDateFilter 0 259205000 [itY, itT, itTm] = [itT]
    ∧ itY ∉ feedDateFilter 0 259205000 [itY, itT, itTm]
    ∧ selectTodayItem 0 259205000 [itY, itT, itTm] = some itT := by
  have h := feed_filter_today_utc_midnight 0 259205000 [itY, itT, itTm]
  refine ⟨by decide, ?_, ?_⟩
  · exact h.2.1 itY (by decide) (Or.inl (by decide))
  · exact h.2.2.2 itT [] (by decide)

/-- Claim C3: `preparePost` emits, after the auto-detected facets and in link
order, one facet per link whose `byteStart` is the UTF-8 byte offset obtained
by converting the UTF-16 index of the first occurrence of the link's display
text (that is, the UTF-8 byte length of the text preceding the occurrence)
and whose `byteEnd` is `byteStart` plus the UTF-8 byte length of the display
text — also when non-ASCII characters precede the link. -/
theorem preparePost_facet_byte_offsets (rawText : String) (links : List Link)
    (autoFacets : Option (List Facet)) (createdAt : String) :
    ((preparePost rawText links autoFacets createdAt).facets.getD []
      = autoFacets.getD [] ++ links.map (mkCustomFacet rawText))
    ∧ (∀ l k, firstOccur l.text.data rawText.data = some k →
        mkCustomFacet rawText l =
          ⟨utf8Length (rawText.data.take k),
           utf8Length (rawText.data.take k) + utf8Length l.text.data,
           l.url⟩) := by
  constructor
  · exact foldl_appendFacetStep rawText links autoFacets
  · intro l k h
    unfold mkCustomFacet
    rw [byteStart_conversion rawText.data l.text.data k h]

/-- Witness for C3: in `"Café de France"` the link text `"France"` starts at
scalar index 8 but UTF-8 byte offset 9 (the `é` before it is two bytes), and
the facet covers bytes 9 to 15. -/
theorem preparePost_facet_byte_offsets_witness :
    firstOccur "France".data "Café de France".data = some 8
    ∧ mkCustomFacet "Café de France"
        ⟨"France", "https://en.wikipedia.org/wiki/France"⟩
      = ⟨9, 15, "https://en.wikipedia.org/wiki/France"⟩
    ∧ (preparePost "Café de France"
        [⟨"France", "https://en.wikipedia.org/wiki/France"⟩] none "t").facets.getD []
      = [mkCustomFacet "Café de France" ⟨"France", "https://en.wikipedia.org/wiki/France"⟩] := by
  have h := preparePost_facet_byte_offsets "Café de France"
    [⟨"France", "https://en.wikipedia.org/wiki/France"⟩] none "t"
  refine ⟨by decide, ?_, h.1⟩
  have h2 := h.2 ⟨"France", "https://en.wikipedia.org/wiki/France"⟩ 8 (by decide)
  rw [h2]
  decide

/-- Counterexample for claim C4: two different links with the same display
text `"France"` in `"France is France"` both receive the byte range 0..6 even
though a second, unconsumed occurrence exists; the code searches with a plain
`indexOf` from the start each time, with no per-string cursor. -/
theorem duplicate_display_text_facets_collide :
    (preparePost "France is France"
      [⟨"France", "https://en.wikipedia.org/wiki/France"⟩,
       ⟨"France", "https://en.wikipedia.org/wiki/France_(disambiguation)"⟩] none "t").facets
      = some [⟨0, 6, "https://en.wikipedia.org/wiki/France"⟩,
              ⟨0, 6, "https://en.wikipedia.org/wiki/France_(disambiguation)"⟩]
    ∧ ("https://en.wikipedia.org/wiki/France" : String)
        ≠ "https://en.wikipedia.org/wiki/France_(disambiguation)"
    ∧ firstOccur "France".data ("France is France".data.drop 6) = some 4 := by
  refine ⟨by rfl, by decide, by decide⟩

/-- Claim C4 as amended: each link is assigned the first occurrence of its
display text with no search cursor, so two links whose display texts are
equal always receive the same byte range. -/
theorem duplicate_display_text_same_range (rawText : String) (l₁ l₂ : Link)
    (h : l₁.text = l₂.text) :
    (mkCustomFacet rawText l₁).byteStart = (mkCustomFacet rawText l₂).byteStart
    ∧ (mkCustomFacet rawText l₁).byteEnd = (mkCustomFacet rawText l₂).byteEnd := by
  unfold mkCustomFacet
  rw [h]
  exact ⟨rfl, rfl⟩

/-- Witness for the amended C4 at the concrete colliding pair. -/
theorem duplicate_display_text_same_range_witness :
    (mkCustomFacet "France is France"
        ⟨"France", "https://en.wikipedia.org/wiki/France"⟩).byteStart
      = (mkCustomFacet "France is France"
        ⟨"France", "https://en.wikipedia.org/wiki/France_(disambiguation)"⟩).byteStart
    ∧ (mkCustomFacet "France is France"
        ⟨"France", "https://en.wikipedia.org/wiki/France"⟩).byteEnd
      = (mkCustomFacet "France is France"
        ⟨"France", "https://en.wikipedia.org/wiki/France_(disambiguation)"⟩).byteEnd :=
  duplicate_display_text_same_range "France is France"
    ⟨"France", "https://en.wikipedia.org/wiki/France"⟩
    ⟨"France", "https://en.wikipedia.org/wiki/France_(disambiguation)"⟩ rfl

/-- The spec's boundary example paragraph for C5. -/
def exHolidayPar : String :=
  "<p>December 25: Christmas; Boxing Day observed in some regions</p>"

/-- A leading paragraph whose holiday text itself contains a second
`": "` separator. -/
def exMultiColonPar : String :=
  "<p>December 25: Christmas; Boxing Day: observed in some regions</p>"

/-- Counterexample for claim C5: on a paragraph with a second colon
separator, the code keeps only field 1 of the `": "` split, not the whole
text after the (first) colon; the produced units are `"<p>Christmas"` and
`"Boxing Day"`, the text after the colon splits into `"Christmas"` and
`"Boxing Day: observed in some regions</p>"`, and the `"observed in some
regions"` tail is present in the post-colon text but in no produced unit. -/
theorem holidays_not_full_text_after_colon :
    getOnThisDayHolidays exMultiColonPar = .ok ["<p>Christmas", "Boxing Day"]
    ∧ specHolidayUnits exMultiColonPar
      = ["Christmas", "Boxing Day: observed in some regions</p>"]
    ∧ ("Boxing Day" : String) ≠ "Boxing Day: observed in some regions</p>"
    ∧ (["<p>Christmas", "Boxing Day"] : List String).all
        (fun u => !jsIncludes u "observed") = true
    ∧ jsIncludes "Christmas; Boxing Day: observed in some regions</p>" "observed" = true := by
  refine ⟨by rfl, by rfl, by decide, by decide, by decide⟩

/-- Claim C5 as amended: with no colon the paragraph yields zero holiday
units; with a `": "` separator the holiday source is field 1 of the `": "`
split only (the text between the first and second separators when more than
one occurs), re-wrapped with `<p>` after dropping its first newline, and that
source is split on `"; "` — never on commas; the spec's boundary example
yields exactly the two units split at `"; "`, and a comma inside a holiday
name stays inside its unit. -/
theorem holidays_second_field_split (pNode t : String)
    (h1 : jsIncludes pNode ":" = true)
    (h2 : (jsSplit pNode ": ").get? 1 = some t) :
    getOnThisDayHolidays pNode = .ok (jsSplit ("<p>" ++ jsReplaceFirst t "\n" "") "; ")
    ∧ (∀ q : String, jsIncludes q ":" = false → getOnThisDayHolidays q = .ok [])
    ∧ getOnThisDayHolidays exHolidayPar
      = .ok ["<p>Christmas", "Boxing Day observed in some regions</p>"]
    ∧ getOnThisDayTodayText exHolidayPar = "<p>December 25</p>"
    ∧ getOnThisDayHolidays "<p>January 1: Feast of Mary, Mother of God; Kwanzaa ends</p>"
      = .ok ["<p>Feast of Mary, Mother of God", "Kwanzaa ends</p>"] := by
  refine ⟨?_, ?_, by rfl, by rfl, by rfl⟩
  · unfold getOnThisDayHolidays
    rw [if_pos h1, h2]
  · intro q hq
    unfold getOnThisDayHolidays
    rw [if_neg (by simp [hq])]

/-- Witness for the amended C5 at the spec's boundary example: exactly two
holiday units, split on `"; "`. -/
theorem holidays_second_field_split_witness :
    getOnThisDayHolidays exHolidayPar
      = .ok (jsSplit ("<p>" ++ jsReplaceFirst
          "Christmas; Boxing Day observed in some regions</p>" "\n" "") "; ")
    ∧ (getOnThisDayHolidays exHolidayPar
        = .ok ["<p>Christmas", "Boxing Day observed in some regions</p>"]) := by
  have h := holidays_second_field_split exHolidayPar
    "Christmas; Boxing Day observed in some regions</p>" (by rfl) (by rfl)
  exact ⟨h.1, h.2.2.1⟩

/-- Claim C6: when the sanitized text carries the deferred `<<YEARSAGO>>`
token, the sanitizer takes the first parenthesized integer, strips its
parentheses, and substitutes the token with the exact difference
`currentUTCYear - year` followed by `" years ago"` (digit counts up to 15
keep the JS `Number` parse exact). -/
theorem years_ago_substitution (currentUTCYear : Int) (s : String) (ds : List Char)
    (htok : jsIncludes s "<<YEARSAGO>>" = true)
    (hm : parenIntMatch s.data = some ('(' :: ds ++ [')']))
    (hdig : ∀ c ∈ ds, c.isDigit)
    (_hlen : ds.length ≤ 15) :
    applyYearsAgo currentUTCYear s
      = .ok (jsReplaceFirst s "<<YEARSAGO>>"
          (toString (currentUTCYear - (digitsToNat ds : Int)) ++ " years ago")) := by
  have hnp : (')' : Char) ∉ ds := by
    intro hin
    have := hdig ')' hin
    simp [Char.isDigit] at this
  have hstr1 : jsReplaceFirst ⟨'(' :: ds ++ [')']⟩ "(" "" = ⟨ds ++ [')']⟩ := by
    show (⟨replaceFirstList ['('] [] (('(' :: ds) ++ [')'])⟩ : String) = ⟨ds ++ [')']⟩
    rw [List.cons_append, replaceFirst_head '(' (ds ++ [')'])]
  have hstr2 : jsReplaceFirst ⟨ds ++ [')']⟩ ")" "" = ⟨ds⟩ := by
    show (⟨replaceFirstList [')'] [] (ds ++ [')'])⟩ : String) = ⟨ds⟩
    rw [replaceFirst_last ')' ds hnp]
  unfold applyYearsAgo
  rw [if_pos htok, hm]
  simp only [hstr1, hstr2]

/-- Witness for C6: a died-marker unit with `(1827)` at current UTC year 2025
produces text containing `"died 198 years ago"`. -/
theorem years_ago_substitution_witness :
    applyYearsAgo 2025 "died <<YEARSAGO>> (1827)"
      = .ok ("died 198 years ago" ++ " (1827)") := by
  have h := years_ago_substitution 2025 "died <<YEARSAGO>> (1827)"
    ['1', '8', '2', '7'] (by rfl) (by rfl) (by decide) (by decide)
  exact h.trans (by rfl)

/-- Claim C1, evaluated at a failing input: with today's article stored and
`cEvA` the first unposted non-todayText unit, a run posts `cEvA` but returns
the store unchanged — `cEvA` is never marked `alreadyPosted` — so two
consecutive runs publish the same unit twice. (The run does scan in order and
post the first eligible unit; the mark-posted/persist step the claim
describes is absent: `markArticleContentAsPosted` is called only for
todayText contents and the store write after posting is commented out.) -/
theorem posted_unit_never_marked_and_reposted :
    runBotArticlePresent store0 dayId = .ok ([cEvA], store0, true)
    ∧ runsPresent dayId 2 store0 = .ok ([[cEvA], [cEvA]], store0)
    ∧ cEvA.alreadyPosted = false
    ∧ (∀ art ∈ store0, ∀ c ∈ art.contentList, c.type = ContentType.event
        → c.alreadyPosted = false) := by
  refine ⟨by rfl, by rfl, by rfl, by decide⟩

/-- Claim C2, with its true half proved in general and its false half
evaluated at a failing input: every invocation hands at most one content to
posting (the loop breaks after the first eligible unit), but for the stored
article with N = 2 unposted non-todayText units, three consecutive runs all
post the same first unit — the second run does not post the second unit and
the (N+1)-th run does not post nothing. -/
theorem at_most_one_per_run_but_no_progression :
    (∀ (store : List Article) (todayISO : String),
      (postsOfRun store todayISO).length ≤ 1)
    ∧ runsPresent dayId 3 store0 = .ok ([[cEvA], [cEvA], [cEvA]], store0)
    ∧ ([[cEvA], [cEvA], [cEvA]] : List (List Content))
        ≠ [[cEvA], [cEvB], ([] : List Content)] := by
  refine ⟨?_, by rfl, by decide⟩
  intro store todayISO
  unfold postsOfRun
  unfold runBotArticlePresent
  cases hfind : store.find? (fun a => a.id == todayISO) with
  | none => simp
  | some art =>
    dsimp only
    cases hrun : runLoop art art.contentList store with
    | error e => simp
    | ok r =>
      obtain ⟨p, st, f⟩ := r
      simpa using runLoop_posts_length art art.contentList store p st f hrun

/-- A concrete prepared post for the posting-failure evaluation. -/
def post0 : BlueskyPost :=
  ⟨"#OnThisDay, December 25th: some event", none, "2025-12-25T12:00:00.000Z"⟩

/-- Claim C9, evaluated at the failing input (a network error from
`agent.post`): the failure is caught inside `postToBluesky` and logged as a
warning, `sanitizeAndPostContent` still returns `true` — contradicting its
own doc comment — so `runBot` emits no critical log; the post record is not
persisted. (The failed unit is indeed not marked posted, but only because no
posted unit is ever marked.) -/
theorem posting_failure_logged_warning_not_critical :
    sanitizeAndPostContent (.ok post0) false true (.error "ECONNRESET")
      = (true, [(.debug, "Attempting to post to Bluesky..."),
                (.warning, "Error posting to BlueSky:")])
    ∧ runBotCriticalLog
        (sanitizeAndPostContent (.ok post0) false true (.error "ECONNRESET")).1 = []
    ∧ LogLevel.critical ∉
        ((sanitizeAndPostContent (.ok post0) false true (.error "ECONNRESET")).2.map Prod.fst)
    ∧ (postToBluesky false true (.error "ECONNRESET")).2 = false := by
  refine ⟨by rfl, by rfl, by decide, by rfl⟩

end OtdBot
